import Mathlib

/-!
Verification of the agent-authoring platform frontend
(`src/frontend/src/types.ts`): the reconnecting WebSocket log client
(`useWebSocket`), the tool-association validation (`addMCPToAgent`) and
the canvas position update (`updateAgentPosition`), shallowly embedded
as executable Lean definitions with theorems about their behaviour.
-/

namespace AgentPlatform

/-! ## Log entries (interface `LogEntry` / `Log`) -/

inductive LogLevel where
  | error
  | warning
  | info
deriving DecidableEq

structure LogEntry where
  timestamp : String
  level : LogLevel
  message : String
deriving DecidableEq

/-- JavaScript `l.slice(-n)`: the suffix of the most recent (at most) `n`
elements, in order. -/
def sliceLast (n : Nat) (l : List α) : List α :=
  (l.reverse.take n).reverse

/-- `setLogs(prev => [...prev, log].slice(-100))` from `ws.onmessage`. -/
def appendLog (prev : List LogEntry) (log : LogEntry) : List LogEntry :=
  sliceLast 100 (prev ++ [log])

/-! ## The reconnecting WebSocket client (`useWebSocket`)

The hook's mutable refs (`wsRef`, `reconnectTimeoutRef`,
`connectionTimeoutRef`, `reconnectAttemptsRef`, `mountedRef`) and React
state (`logs`, `isConnected`) become one explicit state record, and the
event handlers / timer callbacks become a step function on that record.
Sockets created by `new WebSocket(url)` are kept in a list so that stale
(detached) transports and their late events are modelled faithfully;
`readyState` follows the browser WebSocket lifecycle. -/

inductive ReadyState where
  | connecting
  | opened
  | closing
  | closed
deriving DecidableEq

structure Socket where
  sid : Nat
  state : ReadyState
  handlers : Bool
deriving DecidableEq

/-- Whether the retry timer was scheduled by `ws.onclose` or by the
`catch` branch of `connect` (the two callbacks differ in the source). -/
inductive RetrySource where
  | fromClose
  | fromCatch
deriving DecidableEq

structure RetryTimer where
  delay : Nat
  source : RetrySource
deriving DecidableEq

/-- The connection-establish timer; `target` is the socket captured by the
`setTimeout` closure in `connect`. -/
structure ConnTimer where
  target : Nat
  delay : Nat
deriving DecidableEq

structure WSClient where
  sockets : List Socket
  wsCurrent : Option Nat
  reconnectTimeout : Option RetryTimer
  connectionTimeout : Option ConnTimer
  reconnectAttempts : Nat
  mounted : Bool
  isConnected : Bool
  logs : List LogEntry
  initPending : Bool
  nextId : Nat
deriving DecidableEq

def MAX_RECONNECT_ATTEMPTS : Nat := 5

def INITIAL_RECONNECT_DELAY : Nat := 1000

def CONNECTION_TIMEOUT : Nat := 5000

/-- The delay computed in `ws.onclose`:
`Math.min(INITIAL_RECONNECT_DELAY * Math.pow(2, reconnectAttemptsRef.current), 10000)`. -/
def backoffDelay (attempts : Nat) : Nat :=
  min (INITIAL_RECONNECT_DELAY * 2 ^ attempts) 10000

def findSock (l : List Socket) (sid : Nat) : Option Socket :=
  l.find? (fun k => k.sid == sid)

def updSock (l : List Socket) (sid : Nat) (f : Socket → Socket) : List Socket :=
  l.map (fun k => if k.sid = sid then f k else k)

def findSocket (s : WSClient) (sid : Nat) : Option Socket :=
  findSock s.sockets sid

def updateSocket (s : WSClient) (sid : Nat) (f : Socket → Socket) : WSClient :=
  { s with sockets := updSock s.sockets sid f }

/-- `ws.close()`: a CONNECTING or OPEN socket moves to CLOSING (the close
event is delivered later by the environment); otherwise a no-op. -/
def closeSocket (sock : Socket) : Socket :=
  if sock.state = ReadyState.connecting ∨ sock.state = ReadyState.opened then
    { sock with state := ReadyState.closing }
  else sock

/-- `clearTimeouts` from the hook. -/
def clearTimeouts (s : WSClient) : WSClient :=
  { s with reconnectTimeout := none, connectionTimeout := none }

/-- `resetConnection` from the hook: clear both timers, then detach and
close the current transport if any. -/
def resetConnection (s : WSClient) : WSClient :=
  let s1 := clearTimeouts s
  match s1.wsCurrent with
  | none => s1
  | some sid =>
      updateSocket { s1 with wsCurrent := none } sid
        (fun sock => closeSocket { sock with handlers := false })

/-- `connect` from the hook. `ctorThrows` is the environment's choice of
whether `new WebSocket(url)` throws (the `catch` branch). -/
def connect (ctorThrows : Bool) (s : WSClient) : WSClient :=
  if s.mounted = false then s
  else
    let s1 := resetConnection s
    if MAX_RECONNECT_ATTEMPTS ≤ s1.reconnectAttempts then s1
    else if ctorThrows then
      let s2 := { s1 with isConnected := false }
      if s2.reconnectTimeout = none then
        { s2 with reconnectTimeout := some ⟨3000, RetrySource.fromCatch⟩ }
      else s2
    else
      { s1 with
        sockets := s1.sockets ++ [⟨s1.nextId, ReadyState.connecting, true⟩]
        wsCurrent := some s1.nextId
        connectionTimeout := some ⟨s1.nextId, CONNECTION_TIMEOUT⟩
        nextId := s1.nextId + 1 }

/-- Events the client reacts to: socket events delivered by the browser,
timer expirations, and the setup effect's mount/cleanup. -/
inductive Ev where
  | socketOpen (sid : Nat)
  | socketMessage (sid : Nat) (data : Option LogEntry)
  | socketError (sid : Nat)
  | socketClose (sid : Nat)
  | connTimeoutFire
  | retryFire (ctorThrows : Bool)
  | initFire (ctorThrows : Bool)
  | teardown
  | reinit
deriving DecidableEq

/-- The open event: the socket moves CONNECTING → OPEN, then `ws.onopen`
runs if the handlers are attached, guarded by
`ws === wsRef.current && mountedRef.current`. -/
def onOpenEv (s : WSClient) (sid : Nat) : WSClient :=
  match findSocket s sid with
  | none => s
  | some sock =>
      if sock.state = ReadyState.connecting then
        let s1 := updateSocket s sid (fun k => { k with state := ReadyState.opened })
        if sock.handlers = true ∧ s1.wsCurrent = some sid ∧ s1.mounted = true then
          { clearTimeouts s1 with isConnected := true, reconnectAttempts := 0 }
        else s1
      else s

/-- The message event (only delivered on an OPEN socket): `ws.onmessage`
parses the payload (`data = none` models a `JSON.parse` failure, caught
and dropped) and appends to the bounded log list. -/
def onMessageEv (s : WSClient) (sid : Nat) (data : Option LogEntry) : WSClient :=
  match findSocket s sid with
  | none => s
  | some sock =>
      if sock.state = ReadyState.opened ∧ sock.handlers = true ∧
          s.wsCurrent = some sid ∧ s.mounted = true then
        match data with
        | some entry => { s with logs := appendLog s.logs entry }
        | none => s
      else s

/-- The error event: `ws.onerror` only flips `isConnected` off. -/
def onErrorEv (s : WSClient) (sid : Nat) : WSClient :=
  match findSocket s sid with
  | none => s
  | some sock =>
      if (sock.state = ReadyState.connecting ∨ sock.state = ReadyState.opened) ∧
          sock.handlers = true ∧ s.wsCurrent = some sid then
        { s with isConnected := false }
      else s

/-- The close event: the socket moves to CLOSED, then `ws.onclose` runs if
attached and current: drop the transport, clear the connection timer, and
if no retry is pending schedule one with the exponential-backoff delay and
bump the attempt counter. -/
def onCloseEv (s : WSClient) (sid : Nat) : WSClient :=
  match findSocket s sid with
  | none => s
  | some sock =>
      if sock.state ≠ ReadyState.closed then
        let s1 := updateSocket s sid (fun k => { k with state := ReadyState.closed })
        if sock.handlers = true ∧ s1.wsCurrent = some sid then
          let s2 := { s1 with
            isConnected := false
            wsCurrent := none
            connectionTimeout := none }
          if s2.reconnectTimeout = none then
            { s2 with
              reconnectTimeout :=
                some ⟨backoffDelay s2.reconnectAttempts, RetrySource.fromClose⟩
              reconnectAttempts := s2.reconnectAttempts + 1 }
          else s2
        else s1
      else s

/-- The connection-establish timer fires: if the captured socket is still
current and still CONNECTING, close it. -/
def connTimeoutEv (s : WSClient) : WSClient :=
  match s.connectionTimeout with
  | none => s
  | some t =>
      let s1 := { s with connectionTimeout := none }
      if s1.wsCurrent = some t.target then
        match findSocket s1 t.target with
        | none => s1
        | some sock =>
            if sock.state = ReadyState.connecting then
              updateSocket s1 t.target closeSocket
            else s1
      else s1

/-- The retry timer fires. The `onclose`-scheduled callback re-connects
only below the attempt ceiling; the `catch`-scheduled callback calls
`connect` unconditionally. -/
def retryEv (ctorThrows : Bool) (s : WSClient) : WSClient :=
  match s.reconnectTimeout with
  | none => s
  | some t =>
      let s1 := { s with reconnectTimeout := none }
      match t.source with
      | RetrySource.fromClose =>
          if s1.reconnectAttempts < MAX_RECONNECT_ATTEMPTS then connect ctorThrows s1
          else s1
      | RetrySource.fromCatch => connect ctorThrows s1

/-- The setup effect's 100 ms init timer fires: connect if still mounted. -/
def initEv (ctorThrows : Bool) (s : WSClient) : WSClient :=
  if s.initPending = true then
    let s1 := { s with initPending := false }
    if s1.mounted = true then connect ctorThrows s1 else s1
  else s

/-- The effect cleanup: unset `mountedRef`, clear the init timer, and
`resetConnection`. -/
def teardownEv (s : WSClient) : WSClient :=
  resetConnection { s with mounted := false, initPending := false }

/-- The setup effect re-running: remount, reset the attempt counter to
zero, and schedule the init timer. -/
def reinitEv (s : WSClient) : WSClient :=
  { s with mounted := true, reconnectAttempts := 0, initPending := true }

def step (s : WSClient) : Ev → WSClient
  | Ev.socketOpen sid => onOpenEv s sid
  | Ev.socketMessage sid data => onMessageEv s sid data
  | Ev.socketError sid => onErrorEv s sid
  | Ev.socketClose sid => onCloseEv s sid
  | Ev.connTimeoutFire => connTimeoutEv s
  | Ev.retryFire ct => retryEv ct s
  | Ev.initFire ct => initEv ct s
  | Ev.teardown => teardownEv s
  | Ev.reinit => reinitEv s

/-- The hook's state right after the setup effect first runs. -/
def initState : WSClient :=
  { sockets := []
    wsCurrent := none
    reconnectTimeout := none
    connectionTimeout := none
    reconnectAttempts := 0
    mounted := true
    isConnected := false
    logs := []
    initPending := true
    nextId := 0 }

def run (s : WSClient) (evs : List Ev) : WSClient :=
  evs.foldl step s

inductive Reachable : WSClient → Prop where
  | init : Reachable initState
  | next (s : WSClient) (e : Ev) : Reachable s → Reachable (step s e)

/-- A transport that is connecting or open. -/
def outstanding (sock : Socket) : Prop :=
  sock.state = ReadyState.connecting ∨ sock.state = ReadyState.opened

instance (sock : Socket) : Decidable (outstanding sock) := by
  unfold outstanding; infer_instance

/-- The structural invariant of the client: socket ids are fresh and
distinct, and any outstanding transport is the current one with its
handlers attached. -/
def WSInv (s : WSClient) : Prop :=
  (∀ sock ∈ s.sockets, sock.sid < s.nextId) ∧
  List.Pairwise (fun a b => a.sid ≠ b.sid) s.sockets ∧
  (∀ sock ∈ s.sockets, outstanding sock →
    s.wsCurrent = some sock.sid ∧ sock.handlers = true)

instance (s : WSClient) : Decidable (WSInv s) := by
  unfold WSInv; infer_instance

/-- No live transport, no pending timer of any kind. -/
def quiescent (s : WSClient) : Prop :=
  s.wsCurrent = none ∧ s.reconnectTimeout = none ∧ s.connectionTimeout = none ∧
  s.initPending = false ∧ ∀ sock ∈ s.sockets, ¬ outstanding sock

instance (s : WSClient) : Decidable (quiescent s) := by
  unfold quiescent; infer_instance

/-- The terminal state after the attempt ceiling is hit. -/
def givingUp (s : WSClient) : Prop :=
  quiescent s ∧ MAX_RECONNECT_ATTEMPTS ≤ s.reconnectAttempts

instance (s : WSClient) : Decidable (givingUp s) := by
  unfold givingUp; infer_instance

/-- The state after the effect cleanup has run. -/
def tornDown (s : WSClient) : Prop :=
  s.mounted = false ∧ quiescent s

instance (s : WSClient) : Decidable (tornDown s) := by
  unfold tornDown; infer_instance

/-! ## Tool association (`addMCPToAgent`) -/

structure MCPTool where
  id : String
  name : String
  package_name : String
  description : String
  env_variables : List String
deriving DecidableEq

structure MCPAssociation where
  association_id : String
  mcp_tool : MCPTool
  env_values : List (String × String)
deriving DecidableEq

/-- `envValues[envVar]` on the form's record (first binding wins, absent
key gives `none`). -/
def lookupEnv (envValues : List (String × String)) (k : String) : Option String :=
  (envValues.find? (fun p => p.1 == k)).map (fun p => p.2)

/-- JavaScript falsiness of `envValues[envVar]`: `undefined` or `''`. -/
def isFalsy : Option String → Bool
  | none => true
  | some v => v == ""

/-- `selectedTool.env_variables.filter(envVar => !envValues[envVar])`. -/
def missingEnvVars (tool : MCPTool) (envValues : List (String × String)) : List String :=
  tool.env_variables.filter (fun v => isFalsy (lookupEnv envValues v))

/-- `Object.fromEntries(Object.entries(envValues).filter(([_, value]) =>
value !== null && value !== undefined && value !== ''))`. -/
def cleanedEnvValues (envValues : List (String × String)) : List (String × String) :=
  envValues.filter (fun p => ¬ p.2 == "")

/-- Outcome of the `addMCPToAgent` handler: an error notification with no
request issued, or the association request actually sent to the API. -/
inductive AddMCPOutcome where
  | errorNoSelection
  | errorMissing (missing : List String)
  | request (mcp_tool_id : String) (env_values : List (String × String))
deriving DecidableEq

/-- `addMCPToAgent` up to the point the API request is (or is not)
issued: guard on selection, validate required env variables, clean the
value map, and build the payload. -/
def addMCPToAgent (selectedAgent : Option String) (selectedTool : Option MCPTool)
    (envValues : List (String × String)) : AddMCPOutcome :=
  match selectedAgent, selectedTool with
  | some _, some tool =>
      let missing := missingEnvVars tool envValues
      if 0 < missing.length then AddMCPOutcome.errorMissing missing
      else AddMCPOutcome.request tool.id (cleanedEnvValues envValues)
  | _, _ => AddMCPOutcome.errorNoSelection

/-! ## Canvas position update (`updateAgentPosition`) -/

inductive AgentType where
  | single
  | orchestrator
  | worker
deriving DecidableEq

structure Position where
  x : Int
  y : Int
deriving DecidableEq

structure Agent where
  agent_id : String
  name : String
  instruction : String
  model_name : String
  agent_type : AgentType
  usecase_id : String
  position_x : Int
  position_y : Int
  mcp_tools : Option (List MCPAssociation)
deriving DecidableEq

/-- `setAgents(prev => prev.map(agent => agent.agent_id === agentId ?
{...agent, position_x: position.x, position_y: position.y} : agent))`. -/
def updateAgentPosition (agents : List Agent) (agentId : String) (position : Position) :
    List Agent :=
  agents.map (fun agent =>
    if agent.agent_id = agentId then
      { agent with position_x := position.x, position_y := position.y }
    else agent)

/-! ## Concrete fixtures used by witnesses and counterexamples -/

def entry0 : LogEntry := ⟨"2024-01-01T00:00:00Z", LogLevel.info, "started"⟩

def tool0 : MCPTool := ⟨"t1", "Email", "mcp-email-tool", "sends email", ["API_KEY"]⟩

def agA : Agent :=
  ⟨"a1", "Agent A", "be helpful", "gpt-4", AgentType.single, "u1", 10, 20, none⟩

def agB : Agent :=
  ⟨"a2", "Agent B", "route work", "gpt-4", AgentType.orchestrator, "u2", 30, 40, none⟩

/-- The client right after the init timer fired and the first `connect`
created socket 0. -/
def ws1 : WSClient := run initState [Ev.initFire false]

/-- The client after its first attempt's socket was closed by the server:
a retry timer of 1000 ms is pending and the attempt counter is 1. -/
def wsRetry : WSClient := run initState [Ev.initFire false, Ev.socketClose 0]

/-- A trace of five consecutive failed connection attempts: after it the
client has hit the attempt ceiling. -/
def evsFail : List Ev :=
  [Ev.initFire false, Ev.socketClose 0,
   Ev.retryFire false, Ev.socketClose 1,
   Ev.retryFire false, Ev.socketClose 2,
   Ev.retryFire false, Ev.socketClose 3,
   Ev.retryFire false, Ev.socketClose 4,
   Ev.retryFire false]

def gState : WSClient := run initState evsFail

/-- A state torn down by the effect cleanup. -/
def tState : WSClient := run initState [Ev.initFire false, Ev.teardown]

/-! ## List helper lemmas for the bounded log buffer -/

theorem sliceLast_concat (m : Nat) (x : List α) (e : α) :
    sliceLast (m + 1) (x ++ [e]) = sliceLast m x ++ [e] := by
  unfold sliceLast
  simp

theorem sliceLast_sliceLast (m n : Nat) (l : List α) :
    sliceLast m (sliceLast n l) = sliceLast (min m n) l := by
  unfold sliceLast
  rw [List.reverse_reverse, List.take_take]

theorem sliceLast_of_length_le {n : Nat} {l : List α} (h : l.length ≤ n) :
    sliceLast n l = l := by
  unfold sliceLast
  rw [List.take_of_length_le (by simpa using h), List.reverse_reverse]

theorem sliceLast_length (n : Nat) (l : List α) : (sliceLast n l).length = min n l.length := by
  unfold sliceLast
  simp

theorem sliceLast_eq_drop (n : Nat) (l : List α) : sliceLast n l = l.drop (l.length - n) := by
  unfold sliceLast
  rw [← List.rtake_eq_reverse_take_reverse, List.rtake]

theorem foldl_appendLog (evs : List LogEntry) (l0 : List LogEntry) :
    List.foldl appendLog (sliceLast 100 l0) evs = sliceLast 100 (l0 ++ evs) := by
  induction evs generalizing l0 with
  | nil => simp
  | cons e evs ih =>
      have h1 : appendLog (sliceLast 100 l0) e = sliceLast 100 (l0 ++ [e]) := by
        show sliceLast 100 (sliceLast 100 l0 ++ [e]) = sliceLast 100 (l0 ++ [e])
        rw [show (100 : Nat) = 99 + 1 from rfl, sliceLast_concat, sliceLast_concat,
          sliceLast_sliceLast]
        norm_num
      rw [List.foldl_cons, h1, ih (l0 ++ [e]), List.append_assoc]
      rfl

/-! ## Claim theorems -/

/-- Claim C7: the observer-side log buffer is bounded at capacity 100 and
order-preserving: after any sequence of received log events, the retained
list equals the suffix of the most recent (at most) 100 events in arrival
order — in particular after 150 events exactly the most recent 100 are
retained. -/
theorem C7_log_buffer_bounded (evs : List LogEntry) :
    List.foldl appendLog [] evs = sliceLast 100 evs ∧
    (List.foldl appendLog [] evs).length ≤ 100 ∧
    (evs.length = 150 → List.foldl appendLog [] evs = evs.drop 50) := by
  have h : List.foldl appendLog [] evs = sliceLast 100 evs := by
    have h0 := foldl_appendLog evs []
    rwa [sliceLast_of_length_le (by simp), List.nil_append] at h0
  refine ⟨h, ?_, ?_⟩
  · rw [h, sliceLast_length]; omega
  · intro h150
    rw [h, sliceLast_eq_drop, h150]

/-- Claim C7 witness: 150 events retain exactly the last 100. -/
theorem C7_log_buffer_bounded_witness :
    List.foldl appendLog [] (List.replicate 150 entry0) =
      (List.replicate 150 entry0).drop 50 :=
  (C7_log_buffer_bounded (List.replicate 150 entry0)).2.2 (by simp)

/-- Claim C9: a transport message whose payload does not parse as a
`LogEntry` is dropped without modifying the log list, the connection
state, the retry counter, or any socket: the step is the identity. -/
theorem C9_malformed_message_dropped (s : WSClient) (sid : Nat) :
    step s (Ev.socketMessage sid none) = s := by
  show onMessageEv s sid none = s
  unfold onMessageEv
  split
  · rfl
  · split <;> rfl

/-- Claim C10: `updateAgentPosition` keeps the list length and order,
rewrites exactly the position fields of agents whose `agent_id` matches
(leaving all their other fields intact), leaves non-matching agents
untouched, and is the identity when no agent matches. -/
theorem C10_update_position_frame (agents : List Agent) (agentId : String)
    (position : Position) :
    (updateAgentPosition agents agentId position).length = agents.length ∧
    (∀ i (h1 : i < agents.length)
        (h2 : i < (updateAgentPosition agents agentId position).length),
      (agents[i].agent_id = agentId →
        (updateAgentPosition agents agentId position)[i] =
          { agents[i] with position_x := position.x, position_y := position.y }) ∧
      (agents[i].agent_id ≠ agentId →
        (updateAgentPosition agents agentId position)[i] = agents[i])) ∧
    ((∀ a ∈ agents, a.agent_id ≠ agentId) →
      updateAgentPosition agents agentId position = agents) := by
  refine ⟨by simp [updateAgentPosition], ?_, ?_⟩
  · intro i h1 h2
    constructor
    · intro hid
      simp [updateAgentPosition, hid]
    · intro hid
      simp [updateAgentPosition, hid]
  · intro hnone
    have hcg : ∀ a ∈ agents,
        (if a.agent_id = agentId then
          { a with position_x := position.x, position_y := position.y }
        else a) = a := by
      intro a ha
      simp [hnone a ha]
    unfold updateAgentPosition
    rw [List.map_congr_left hcg]
    simp

/-- Claim C10 witness: a concrete two-agent list, moving agent `a1`. -/
theorem C10_update_position_frame_witness :
    (updateAgentPosition [agA, agB] "a1" ⟨5, 6⟩)[0] =
      { agA with position_x := 5, position_y := 6 } ∧
    (updateAgentPosition [agA, agB] "a1" ⟨5, 6⟩)[1] = agB := by
  have h := C10_update_position_frame [agA, agB] "a1" ⟨5, 6⟩
  exact ⟨((h.2.1 0 (by decide) (by decide)).1 (by decide)),
    ((h.2.1 1 (by decide) (by decide)).2 (by decide))⟩

theorem lookupEnv_cleaned (envValues : List (String × String)) (k v : String)
    (h : lookupEnv envValues k = some v) (hv : ¬ v = "") :
    lookupEnv (cleanedEnvValues envValues) k = some v := by
  induction envValues with
  | nil => simp [lookupEnv] at h
  | cons p rest ih =>
      by_cases hk : p.1 = k
      · have hp : lookupEnv (p :: rest) k = some p.2 := by
          simp [lookupEnv, List.find?_cons_of_pos, hk]
        rw [hp] at h
        obtain rfl : p.2 = v := by injection h
        have hkeep : cleanedEnvValues (p :: rest) = p :: cleanedEnvValues rest := by
          simp [cleanedEnvValues, List.filter_cons, hv]
        rw [hkeep]
        simp [lookupEnv, List.find?_cons_of_pos, hk]
      · have hp : lookupEnv (p :: rest) k = lookupEnv rest k := by
          simp [lookupEnv, List.find?_cons_of_neg, hk]
        rw [hp] at h
        have := ih h
        by_cases hempty : p.2 = ""
        · have : cleanedEnvValues (p :: rest) = cleanedEnvValues rest := by
            simp [cleanedEnvValues, List.filter_cons, hempty]
          rw [this]
          exact ih h
        · have hkeep : cleanedEnvValues (p :: rest) = p :: cleanedEnvValues rest := by
            simp [cleanedEnvValues, List.filter_cons, hempty]
          rw [hkeep]
          simpa [lookupEnv, List.find?_cons_of_neg, hk] using ih h

/-- Claim C8: `addMCPToAgent` validates that every environment variable
the selected tool declares has a non-empty value before anything is sent:
with a missing or empty value it produces only an error notification
(naming the missing variables) and issues no request; otherwise it issues
the request with the tool id and exactly the non-empty values, preserving
the value of every declared variable. -/
theorem C8_env_validation (aid : String) (tool : MCPTool)
    (envValues : List (String × String)) :
    ((∃ v ∈ tool.env_variables, isFalsy (lookupEnv envValues v) = true) →
      addMCPToAgent (some aid) (some tool) envValues =
        AddMCPOutcome.errorMissing (missingEnvVars tool envValues) ∧
      missingEnvVars tool envValues ≠ []) ∧
    ((∀ v ∈ tool.env_variables, isFalsy (lookupEnv envValues v) = false) →
      addMCPToAgent (some aid) (some tool) envValues =
        AddMCPOutcome.request tool.id (cleanedEnvValues envValues) ∧
      (∀ p ∈ cleanedEnvValues envValues, ¬ p.2 = "") ∧
      (∀ v ∈ tool.env_variables,
        lookupEnv (cleanedEnvValues envValues) v = lookupEnv envValues v)) := by
  constructor
  · rintro ⟨v, hv, hfalsy⟩
    have hmem : v ∈ missingEnvVars tool envValues := by
      simp [missingEnvVars, List.mem_filter, hv, hfalsy]
    have hne : missingEnvVars tool envValues ≠ [] := by
      intro hnil; rw [hnil] at hmem; exact (List.not_mem_nil v) hmem
    refine ⟨?_, hne⟩
    have hlen : 0 < (missingEnvVars tool envValues).length := List.length_pos.mpr hne
    simp [addMCPToAgent, hlen]
  · intro hall
    have hnil : missingEnvVars tool envValues = [] := by
      unfold missingEnvVars
      rw [List.filter_eq_nil_iff]
      intro v hv
      simp [hall v hv]
    refine ⟨by simp [addMCPToAgent, hnil], ?_, ?_⟩
    · intro p hp
      have := List.of_mem_filter hp
      simpa using this
    · intro v hv
      have hfalse := hall v hv
      cases h : lookupEnv envValues v with
      | none => rw [h] at hfalse; simp [isFalsy] at hfalse
      | some val =>
          rw [h] at hfalse
          have hne : ¬ val = "" := by
            simpa [isFalsy] using hfalse
          exact lookupEnv_cleaned envValues v val h hne

/-- Claim C8 witness: a tool declaring `API_KEY`, once with the value
missing and once with it supplied. -/
theorem C8_env_validation_witness :
    addMCPToAgent (some "a1") (some tool0) [("API_KEY", "")] =
      AddMCPOutcome.errorMissing ["API_KEY"] ∧
    addMCPToAgent (some "a1") (some tool0) [("API_KEY", "k")] =
      AddMCPOutcome.request "t1" [("API_KEY", "k")] := by
  constructor
  · have h := (C8_env_validation "a1" tool0 [("API_KEY", "")]).1
      ⟨"API_KEY", by decide, by decide⟩
    rw [h.1]
    decide
  · have h := (C8_env_validation "a1" tool0 [("API_KEY", "k")]).2 (by decide)
    rw [h.1]
    decide

/-! ## Helper lemmas about the WebSocket client primitives -/

@[simp] theorem closeSocket_sid (k : Socket) : (closeSocket k).sid = k.sid := by
  unfold closeSocket; split <;> rfl

@[simp] theorem closeSocket_handlers (k : Socket) : (closeSocket k).handlers = k.handlers := by
  unfold closeSocket; split <;> rfl

theorem closeSocket_not_outstanding (k : Socket) : ¬ outstanding (closeSocket k) := by
  unfold closeSocket outstanding
  rcases k with ⟨sid, st, h⟩
  cases st <;> simp

@[simp] theorem resetConnection_wsCurrent (s : WSClient) :
    (resetConnection s).wsCurrent = none := by
  unfold resetConnection clearTimeouts
  cases s.wsCurrent <;> rfl

@[simp] theorem resetConnection_reconnectTimeout (s : WSClient) :
    (resetConnection s).reconnectTimeout = none := by
  unfold resetConnection clearTimeouts
  cases s.wsCurrent <;> rfl

@[simp] theorem resetConnection_connectionTimeout (s : WSClient) :
    (resetConnection s).connectionTimeout = none := by
  unfold resetConnection clearTimeouts
  cases s.wsCurrent <;> rfl

@[simp] theorem resetConnection_reconnectAttempts (s : WSClient) :
    (resetConnection s).reconnectAttempts = s.reconnectAttempts := by
  unfold resetConnection clearTimeouts
  cases s.wsCurrent <;> rfl

@[simp] theorem resetConnection_mounted (s : WSClient) :
    (resetConnection s).mounted = s.mounted := by
  unfold resetConnection clearTimeouts
  cases s.wsCurrent <;> rfl

@[simp] theorem resetConnection_isConnected (s : WSClient) :
    (resetConnection s).isConnected = s.isConnected := by
  unfold resetConnection clearTimeouts
  cases s.wsCurrent <;> rfl

@[simp] theorem resetConnection_logs (s : WSClient) :
    (resetConnection s).logs = s.logs := by
  unfold resetConnection clearTimeouts
  cases s.wsCurrent <;> rfl

@[simp] theorem resetConnection_initPending (s : WSClient) :
    (resetConnection s).initPending = s.initPending := by
  unfold resetConnection clearTimeouts
  cases s.wsCurrent <;> rfl

@[simp] theorem resetConnection_nextId (s : WSClient) :
    (resetConnection s).nextId = s.nextId := by
  unfold resetConnection clearTimeouts
  cases s.wsCurrent <;> rfl

theorem resetConnection_sockets_none (s : WSClient) (h : s.wsCurrent = none) :
    (resetConnection s).sockets = s.sockets := by
  unfold resetConnection clearTimeouts
  rw [show ({ s with reconnectTimeout := none, connectionTimeout := none} : WSClient).wsCurrent
    = s.wsCurrent from rfl, h]

theorem resetConnection_sockets_some (s : WSClient) (sid : Nat) (h : s.wsCurrent = some sid) :
    (resetConnection s).sockets =
      updSock s.sockets sid (fun k => closeSocket { k with handlers := false }) := by
  unfold resetConnection clearTimeouts
  rw [show ({ s with reconnectTimeout := none, connectionTimeout := none} : WSClient).wsCurrent
    = s.wsCurrent from rfl, h]
  rfl

theorem mem_updSock {l : List Socket} {sid : Nat} {f : Socket → Socket} {sock : Socket} :
    sock ∈ updSock l sid f ↔ ∃ k, k ∈ l ∧ sock = (if k.sid = sid then f k else k) := by
  unfold updSock
  rw [List.mem_map]
  constructor
  · rintro ⟨k, hk, hE⟩; exact ⟨k, hk, hE.symm⟩
  · rintro ⟨k, hk, hE⟩; exact ⟨k, hk, hE.symm⟩

theorem updSock_sid_eq {sid : Nat} {f : Socket → Socket} (hf : ∀ k, (f k).sid = k.sid)
    (k : Socket) : (if k.sid = sid then f k else k).sid = k.sid := by
  split
  · exact hf k
  · rfl

theorem findSock_updSock {l : List Socket} {sid : Nat} {f : Socket → Socket}
    (hf : ∀ k, (f k).sid = k.sid) :
    findSock (updSock l sid f) sid = (findSock l sid).map f := by
  induction l with
  | nil => rfl
  | cons k rest ih =>
      unfold findSock updSock at *
      by_cases hk : k.sid = sid
      · rw [List.map_cons, if_pos hk]
        rw [List.find?_cons_of_pos _ (by simp [hf, hk]),
          List.find?_cons_of_pos _ (by simpa using hk)]
        rfl
      · rw [List.map_cons, if_neg hk]
        rw [List.find?_cons_of_neg _ (by simpa using hk),
          List.find?_cons_of_neg _ (by simpa using hk)]
        exact ih

theorem findSock_updSock_ne {l : List Socket} {sid sid' : Nat} {f : Socket → Socket}
    (hf : ∀ k, (f k).sid = k.sid) (hne : sid' ≠ sid) :
    findSock (updSock l sid f) sid' = findSock l sid' := by
  induction l with
  | nil => rfl
  | cons k rest ih =>
      unfold findSock updSock at *
      by_cases hk : k.sid = sid'
      · have hks : ¬ k.sid = sid := by rw [hk]; exact hne
        rw [List.map_cons, if_neg hks,
          List.find?_cons_of_pos _ (by simpa using hk),
          List.find?_cons_of_pos _ (by simpa using hk)]
      · rw [List.map_cons,
          List.find?_cons_of_neg _ (by simp [updSock_sid_eq hf k, hk]),
          List.find?_cons_of_neg _ (by simpa using hk)]
        exact ih

theorem sidInj {l : List Socket} (hp : List.Pairwise (fun a b => a.sid ≠ b.sid) l)
    {s1 s2 : Socket} (h1 : s1 ∈ l) (h2 : s2 ∈ l) (hsid : s1.sid = s2.sid) :
    s1 = s2 := by
  induction l with
  | nil => cases h1
  | cons x xs ih =>
      rw [List.pairwise_cons] at hp
      rcases List.mem_cons.mp h1 with rfl | h1'
      · rcases List.mem_cons.mp h2 with rfl | h2'
        · rfl
        · exact absurd hsid (hp.1 s2 h2')
      · rcases List.mem_cons.mp h2 with rfl | h2'
        · exact absurd hsid.symm (hp.1 s1 h1')
        · exact ih hp.2 h1' h2'

@[simp] theorem updateSocket_sockets (s : WSClient) (sid : Nat) (f : Socket → Socket) :
    (updateSocket s sid f).sockets = updSock s.sockets sid f := rfl

@[simp] theorem updateSocket_wsCurrent (s : WSClient) (sid : Nat) (f : Socket → Socket) :
    (updateSocket s sid f).wsCurrent = s.wsCurrent := rfl

@[simp] theorem updateSocket_reconnectTimeout (s : WSClient) (sid : Nat) (f : Socket → Socket) :
    (updateSocket s sid f).reconnectTimeout = s.reconnectTimeout := rfl

@[simp] theorem updateSocket_connectionTimeout (s : WSClient) (sid : Nat) (f : Socket → Socket) :
    (updateSocket s sid f).connectionTimeout = s.connectionTimeout := rfl

@[simp] theorem updateSocket_reconnectAttempts (s : WSClient) (sid : Nat) (f : Socket → Socket) :
    (updateSocket s sid f).reconnectAttempts = s.reconnectAttempts := rfl

@[simp] theorem updateSocket_mounted (s : WSClient) (sid : Nat) (f : Socket → Socket) :
    (updateSocket s sid f).mounted = s.mounted := rfl

@[simp] theorem updateSocket_isConnected (s : WSClient) (sid : Nat) (f : Socket → Socket) :
    (updateSocket s sid f).isConnected = s.isConnected := rfl

@[simp] theorem updateSocket_logs (s : WSClient) (sid : Nat) (f : Socket → Socket) :
    (updateSocket s sid f).logs = s.logs := rfl

@[simp] theorem updateSocket_initPending (s : WSClient) (sid : Nat) (f : Socket → Socket) :
    (updateSocket s sid f).initPending = s.initPending := rfl

@[simp] theorem updateSocket_nextId (s : WSClient) (sid : Nat) (f : Socket → Socket) :
    (updateSocket s sid f).nextId = s.nextId := rfl

/-- `connect` when the constructor throws: the fixed 3000 ms retry of the
`catch` branch, with no attempt-counter change. -/
theorem connect_throw (s : WSClient) (hm : s.mounted = true)
    (hatt : s.reconnectAttempts < MAX_RECONNECT_ATTEMPTS) :
    connect true s = { resetConnection s with
      isConnected := false
      reconnectTimeout := some ⟨3000, RetrySource.fromCatch⟩ } := by
  simp only [connect]
  rw [if_neg (by simp [hm]), if_neg (by rw [resetConnection_reconnectAttempts]; omega),
    if_pos trivial, if_pos (resetConnection_reconnectTimeout s)]

/-- `connect` in the normal case: tear down, then create the fresh
CONNECTING socket and arm the connection timer. -/
theorem connect_ok (s : WSClient) (hm : s.mounted = true)
    (hatt : s.reconnectAttempts < MAX_RECONNECT_ATTEMPTS) :
    connect false s = { resetConnection s with
      sockets := (resetConnection s).sockets ++ [⟨s.nextId, ReadyState.connecting, true⟩]
      wsCurrent := some s.nextId
      connectionTimeout := some ⟨s.nextId, CONNECTION_TIMEOUT⟩
      nextId := s.nextId + 1 } := by
  simp only [connect]
  rw [if_neg (by simp [hm]), if_neg (by rw [resetConnection_reconnectAttempts]; omega),
    if_neg (by simp), resetConnection_nextId]

/-- `ws.onclose` on the current attached transport with no retry pending:
socket closed, transport dropped, connection timer cleared, one retry
scheduled with the backoff delay, counter bumped. -/
theorem onClose_schedules (s : WSClient) (sid : Nat) (sock : Socket)
    (hfind : findSocket s sid = some sock) (hstate : sock.state ≠ ReadyState.closed)
    (hhand : sock.handlers = true) (hcur : s.wsCurrent = some sid)
    (hrt : s.reconnectTimeout = none) :
    onCloseEv s sid =
      { updateSocket s sid (fun k => { k with state := ReadyState.closed }) with
        isConnected := false
        wsCurrent := none
        connectionTimeout := none
        reconnectTimeout := some ⟨backoffDelay s.reconnectAttempts, RetrySource.fromClose⟩
        reconnectAttempts := s.reconnectAttempts + 1 } := by
  simp only [onCloseEv, hfind, updateSocket_wsCurrent, updateSocket_reconnectTimeout,
    updateSocket_reconnectAttempts]
  rw [if_pos hstate, if_pos ⟨hhand, hcur⟩, if_pos hrt]

/-- `ws.onopen` on the current attached transport while mounted. -/
theorem onOpen_eq (s : WSClient) (sid : Nat) (sock : Socket)
    (hfind : findSocket s sid = some sock) (hconn : sock.state = ReadyState.connecting)
    (hhand : sock.handlers = true) (hcur : s.wsCurrent = some sid)
    (hm : s.mounted = true) :
    onOpenEv s sid =
      { clearTimeouts (updateSocket s sid (fun k => { k with state := ReadyState.opened })) with
        isConnected := true
        reconnectAttempts := 0 } := by
  simp only [onOpenEv, hfind, updateSocket_wsCurrent, updateSocket_mounted]
  rw [if_pos hconn, if_pos ⟨hhand, hcur, hm⟩]

/-- `ws.onmessage` with a well-formed payload on the current open
transport while mounted. -/
theorem onMessage_eq (s : WSClient) (sid : Nat) (sock : Socket) (entry : LogEntry)
    (hfind : findSocket s sid = some sock) (hopen : sock.state = ReadyState.opened)
    (hhand : sock.handlers = true) (hcur : s.wsCurrent = some sid)
    (hm : s.mounted = true) :
    onMessageEv s sid (some entry) = { s with logs := appendLog s.logs entry } := by
  simp only [onMessageEv, hfind]
  rw [if_pos ⟨hopen, hhand, hcur, hm⟩]

/-- Claim C1 counterexample: on the disconnection path where the
`WebSocket` constructor throws, the client does not follow the claimed
backoff. After one failed attempt (counter 1) a retry whose constructor
throws schedules a fixed 3000 ms timer and leaves the counter at 1,
whereas the claim requires `min(1000·2^1, 10000) = 2000` ms and counter 2. -/
theorem C1_backoff_cex :
    (run initState [Ev.initFire false, Ev.socketClose 0, Ev.retryFire true]).reconnectTimeout =
      some ⟨3000, RetrySource.fromCatch⟩ ∧
    (run initState [Ev.initFire false, Ev.socketClose 0, Ev.retryFire true]).reconnectAttempts =
      1 ∧
    backoffDelay 1 = 2000 ∧ (3000 : Nat) ≠ 2000 := by
  decide

/-- Claim C1, amended: on a disconnection delivered through the close
event (explicit close, error, or connection timeout) with no retry
pending, exactly one retry is scheduled after `min(1000·2^attempts,
10000)` ms, the counter is incremented, and the client re-enters
Connecting (a fresh CONNECTING transport) when the timer fires below the
attempt ceiling; the delays are 1000, 2000, 4000, 8000, then capped at
10000 ms. But on the path where the `WebSocket` constructor throws, a
fixed 3000 ms retry is scheduled instead and the counter is not
incremented. -/
theorem C1_backoff_amended :
    (∀ s sid sock, findSocket s sid = some sock → sock.state ≠ ReadyState.closed →
      sock.handlers = true → s.wsCurrent = some sid → s.reconnectTimeout = none →
      (step s (Ev.socketClose sid)).reconnectTimeout =
        some ⟨backoffDelay s.reconnectAttempts, RetrySource.fromClose⟩ ∧
      (step s (Ev.socketClose sid)).reconnectAttempts = s.reconnectAttempts + 1) ∧
    (∀ s, s.mounted = true → s.reconnectAttempts < MAX_RECONNECT_ATTEMPTS →
      (connect true s).reconnectTimeout = some ⟨3000, RetrySource.fromCatch⟩ ∧
      (connect true s).reconnectAttempts = s.reconnectAttempts) ∧
    (backoffDelay 0 = 1000 ∧ backoffDelay 1 = 2000 ∧ backoffDelay 2 = 4000 ∧
      backoffDelay 3 = 8000 ∧ backoffDelay 4 = 10000 ∧
      (∀ n, 4 ≤ n → backoffDelay n = 10000)) ∧
    (∀ s d, s.reconnectTimeout = some ⟨d, RetrySource.fromClose⟩ →
      s.reconnectAttempts < MAX_RECONNECT_ATTEMPTS → s.mounted = true →
      (step s (Ev.retryFire false)).wsCurrent = some s.nextId ∧
      (⟨s.nextId, ReadyState.connecting, true⟩ : Socket) ∈
        (step s (Ev.retryFire false)).sockets) := by
  refine ⟨?_, ?_, ?_, ?_⟩
  · intro s sid sock hfind hstate hhand hcur hrt
    have h := onClose_schedules s sid sock hfind hstate hhand hcur hrt
    rw [show step s (Ev.socketClose sid) = onCloseEv s sid from rfl, h]
    exact ⟨rfl, rfl⟩
  · intro s hm hatt
    rw [connect_throw s hm hatt]
    exact ⟨rfl, by simp⟩
  · refine ⟨by decide, by decide, by decide, by decide, by decide, ?_⟩
    intro n hn
    have h16 : (16 : Nat) ≤ 2 ^ n := by
      calc (16 : Nat) = 2 ^ 4 := by norm_num
        _ ≤ 2 ^ n := Nat.pow_le_pow_right (by norm_num) hn
    unfold backoffDelay INITIAL_RECONNECT_DELAY
    omega
  · intro s d hrt hatt hm
    have h1 : step s (Ev.retryFire false) =
        connect false { s with reconnectTimeout := none } := by
      simp only [step, retryEv, hrt]
      rw [if_pos hatt]
    rw [h1, connect_ok { s with reconnectTimeout := none } hm hatt]
    exact ⟨rfl, List.mem_append_right _ (List.mem_singleton_self _)⟩

/-- Claim C1 witness: the close-event backoff at attempt 0 (1000 ms,
counter 0 → 1), the constructor-throw branch (3000 ms, counter stays 0),
the cap beyond four attempts, and the re-entry into Connecting when the
pending retry fires. -/
theorem C1_backoff_amended_witness :
    (step ws1 (Ev.socketClose 0)).reconnectTimeout = some ⟨1000, RetrySource.fromClose⟩ ∧
    (step ws1 (Ev.socketClose 0)).reconnectAttempts = 1 ∧
    (connect true ws1).reconnectTimeout = some ⟨3000, RetrySource.fromCatch⟩ ∧
    (connect true ws1).reconnectAttempts = 0 ∧
    backoffDelay 5 = 10000 ∧
    (step wsRetry (Ev.retryFire false)).wsCurrent = some 1 ∧
    (⟨1, ReadyState.connecting, true⟩ : Socket) ∈ (step wsRetry (Ev.retryFire false)).sockets := by
  obtain ⟨h1, h2, h3, h4⟩ := C1_backoff_amended
  have ha := h1 ws1 0 ⟨0, ReadyState.connecting, true⟩ (by decide) (by decide) (by decide)
    (by decide) (by decide)
  have hb := h2 ws1 (by decide) (by decide)
  have hd := h4 wsRetry 1000 (by decide) (by decide) (by decide)
  refine ⟨?_, ?_, hb.1, ?_, h3.2.2.2.2.2 5 (by omega), ?_, ?_⟩
  · rw [ha.1]; decide
  · rw [ha.2]; decide
  · rw [hb.2]; decide
  · rw [hd.1]; decide
  · have hn : wsRetry.nextId = 1 := by decide
    rw [← hn]
    exact hd.2

/-- Claim C5: a connection attempt is bounded by the 5000 ms connection
timeout: when it fires with the current transport still CONNECTING, the
socket is closed (abandoned), and the resulting close event is treated
as a failure — it schedules the backoff retry and bumps the counter. -/
theorem C5_connect_timeout_bounds (s : WSClient) (sid : Nat) (sock : Socket)
    (hct : s.connectionTimeout = some ⟨sid, CONNECTION_TIMEOUT⟩)
    (hcur : s.wsCurrent = some sid)
    (hfind : findSocket s sid = some sock)
    (hconn : sock.state = ReadyState.connecting)
    (hhand : sock.handlers = true)
    (hrt : s.reconnectTimeout = none) :
    CONNECTION_TIMEOUT = 5000 ∧
    findSocket (step s Ev.connTimeoutFire) sid = some { sock with state := ReadyState.closing } ∧
    (step s Ev.connTimeoutFire).wsCurrent = some sid ∧
    (step (step s Ev.connTimeoutFire) (Ev.socketClose sid)).reconnectTimeout =
      some ⟨backoffDelay s.reconnectAttempts, RetrySource.fromClose⟩ ∧
    (step (step s Ev.connTimeoutFire) (Ev.socketClose sid)).reconnectAttempts =
      s.reconnectAttempts + 1 := by
  have hfind' : findSock s.sockets sid = some sock := hfind
  have hstep : step s Ev.connTimeoutFire =
      updateSocket { s with connectionTimeout := none } sid closeSocket := by
    simp only [step, connTimeoutEv, hct, findSocket, hfind']
    rw [if_pos hcur, if_pos hconn]
  have hclose : closeSocket sock = { sock with state := ReadyState.closing } := by
    unfold closeSocket
    rw [if_pos (Or.inl hconn)]
  have hf1 : findSocket (step s Ev.connTimeoutFire) sid =
      some { sock with state := ReadyState.closing } := by
    rw [hstep]
    show findSock (updSock s.sockets sid closeSocket) sid = _
    rw [findSock_updSock closeSocket_sid, hfind', Option.map_some', hclose]
  have hc2 := onClose_schedules (step s Ev.connTimeoutFire) sid
    { sock with state := ReadyState.closing } hf1 (by simp) (by simpa using hhand)
    (by rw [hstep]; simpa using hcur) (by rw [hstep]; simpa using hrt)
  refine ⟨rfl, hf1, by rw [hstep]; simpa using hcur, ?_, ?_⟩
  · rw [show step (step s Ev.connTimeoutFire) (Ev.socketClose sid) =
      onCloseEv (step s Ev.connTimeoutFire) sid from rfl, hc2]
    rw [hstep]
    simp
  · rw [show step (step s Ev.connTimeoutFire) (Ev.socketClose sid) =
      onCloseEv (step s Ev.connTimeoutFire) sid from rfl, hc2]
    rw [hstep]
    simp

/-- Claim C5 witness: the fresh attempt of `ws1` timing out. -/
theorem C5_connect_timeout_bounds_witness :
    findSocket (step ws1 Ev.connTimeoutFire) 0 = some ⟨0, ReadyState.closing, true⟩ ∧
    (step (step ws1 Ev.connTimeoutFire) (Ev.socketClose 0)).reconnectTimeout =
      some ⟨1000, RetrySource.fromClose⟩ ∧
    (step (step ws1 Ev.connTimeoutFire) (Ev.socketClose 0)).reconnectAttempts = 1 := by
  have h := C5_connect_timeout_bounds ws1 0 ⟨0, ReadyState.connecting, true⟩ (by decide)
    (by decide) (by decide) (by decide) (by decide) (by decide)
  refine ⟨?_, ?_, ?_⟩
  · rw [h.2.1]
  · rw [h.2.2.2.1]; decide
  · rw [h.2.2.2.2]; decide

/-- Claim C6: on the open event of the current attached transport while
mounted, the client becomes Connected, the attempt counter resets to
zero, both pending timers are cleared, the log list is untouched; and
thereafter each well-formed message on that transport is appended at the
end of the log list (in arrival order, subject to the capacity-100
bound, which does not drop anything while fewer than 100 entries are
retained). -/
theorem C6_open_resets_and_streams (s : WSClient) (sid : Nat) (sock : Socket)
    (hfind : findSocket s sid = some sock) (hconn : sock.state = ReadyState.connecting)
    (hhand : sock.handlers = true) (hcur : s.wsCurrent = some sid)
    (hm : s.mounted = true) :
    (step s (Ev.socketOpen sid)).isConnected = true ∧
    (step s (Ev.socketOpen sid)).reconnectAttempts = 0 ∧
    (step s (Ev.socketOpen sid)).reconnectTimeout = none ∧
    (step s (Ev.socketOpen sid)).connectionTimeout = none ∧
    (step s (Ev.socketOpen sid)).logs = s.logs ∧
    (∀ entry, (step (step s (Ev.socketOpen sid)) (Ev.socketMessage sid (some entry))).logs =
      appendLog s.logs entry) ∧
    (∀ (l : List LogEntry) (entry : LogEntry), l.length < 100 →
      appendLog l entry = l ++ [entry]) := by
  have hstep := onOpen_eq s sid sock hfind hconn hhand hcur hm
  rw [show step s (Ev.socketOpen sid) = onOpenEv s sid from rfl]
  have hf1 : findSocket (onOpenEv s sid) sid =
      some { sock with state := ReadyState.opened } := by
    rw [hstep]
    show findSock (updSock s.sockets sid (fun k => { k with state := ReadyState.opened }))
      sid = _
    rw [@findSock_updSock s.sockets sid (fun k => { k with state := ReadyState.opened })
      (fun k => rfl), show findSock s.sockets sid = some sock from hfind, Option.map_some']
  have hmsg : ∀ entry, onMessageEv (onOpenEv s sid) sid (some entry) =
      { onOpenEv s sid with logs := appendLog (onOpenEv s sid).logs entry } := by
    intro entry
    exact onMessage_eq _ sid _ entry hf1 rfl (by simpa using hhand)
      (by rw [hstep]; simpa using hcur) (by rw [hstep]; simpa using hm)
  refine ⟨by simp [hstep, clearTimeouts], by simp [hstep, clearTimeouts],
    by simp [hstep, clearTimeouts], by simp [hstep, clearTimeouts],
    by simp [hstep, clearTimeouts], ?_, ?_⟩
  · intro entry
    have hlogs : (onOpenEv s sid).logs = s.logs := by simp [hstep, clearTimeouts]
    rw [show step (onOpenEv s sid) (Ev.socketMessage sid (some entry)) =
      onMessageEv (onOpenEv s sid) sid (some entry) from rfl, hmsg]
    show appendLog (onOpenEv s sid).logs entry = appendLog s.logs entry
    rw [hlogs]
  · intro l entry hlen
    unfold appendLog
    exact sliceLast_of_length_le (by simp; omega)

/-- Claim C6 witness: `ws1`'s socket 0 opening, then one message. -/
theorem C6_open_resets_and_streams_witness :
    (step ws1 (Ev.socketOpen 0)).isConnected = true ∧
    (step ws1 (Ev.socketOpen 0)).reconnectAttempts = 0 ∧
    (step (step ws1 (Ev.socketOpen 0)) (Ev.socketMessage 0 (some entry0))).logs = [entry0] := by
  have h := C6_open_resets_and_streams ws1 0 ⟨0, ReadyState.connecting, true⟩ (by decide)
    (by decide) (by decide) (by decide) (by decide)
  refine ⟨h.1, h.2.1, ?_⟩
  rw [h.2.2.2.2.2.1 entry0]
  decide

/-- `resetConnection` leaves no outstanding transport, assuming every
outstanding transport was the attached current one. -/
theorem resetConnection_no_outstanding (s : WSClient)
    (h3 : ∀ sock ∈ s.sockets, outstanding sock →
      s.wsCurrent = some sock.sid ∧ sock.handlers = true) :
    ∀ sock ∈ (resetConnection s).sockets, ¬ outstanding sock := by
  intro sock hmem hout
  cases hc : s.wsCurrent with
  | none =>
      rw [resetConnection_sockets_none s hc] at hmem
      have h5 := (h3 sock hmem hout).1
      rw [hc] at h5
      exact Option.noConfusion h5
  | some sid =>
      rw [resetConnection_sockets_some s sid hc] at hmem
      rcases mem_updSock.mp hmem with ⟨k, hk, hEq⟩
      by_cases hks : k.sid = sid
      · rw [if_pos hks] at hEq
        subst hEq
        exact closeSocket_not_outstanding _ hout
      · rw [if_neg hks] at hEq
        subst hEq
        have h5 := (h3 sock hk hout).1
        rw [hc] at h5
        injection h5 with h6
        exact hks h6.symm

/-- In a quiescent state every event except the external re-initiation is
inert: the state stays quiescent, no socket is created, and the attempt
counter, timers and mounted flag are untouched. -/
theorem quiescent_step (s : WSClient) (e : Ev) (hq : quiescent s) (hne : e ≠ Ev.reinit) :
    quiescent (step s e) ∧ (step s e).nextId = s.nextId ∧
    (step s e).reconnectAttempts = s.reconnectAttempts ∧
    (s.mounted = false → (step s e).mounted = false) := by
  obtain ⟨hcur, hrt, hct, hip, hsock⟩ := hq
  have hself : step s e = s →
      quiescent (step s e) ∧ (step s e).nextId = s.nextId ∧
      (step s e).reconnectAttempts = s.reconnectAttempts ∧
      (s.mounted = false → (step s e).mounted = false) := by
    intro h
    rw [h]
    exact ⟨⟨hcur, hrt, hct, hip, hsock⟩, rfl, rfl, fun h2 => h2⟩
  cases e with
  | socketOpen sid =>
      apply hself
      cases hf : findSocket s sid with
      | none => simp only [step, onOpenEv, hf]
      | some sock =>
          simp only [step, onOpenEv, hf]
          rw [if_neg (fun hst => hsock sock (List.mem_of_find?_eq_some hf) (Or.inl hst))]
  | socketMessage sid data =>
      apply hself
      cases hf : findSocket s sid with
      | none => simp only [step, onMessageEv, hf]
      | some sock =>
          simp only [step, onMessageEv, hf]
          rw [if_neg (fun hc => hsock sock (List.mem_of_find?_eq_some hf) (Or.inr hc.1))]
  | socketError sid =>
      apply hself
      cases hf : findSocket s sid with
      | none => simp only [step, onErrorEv, hf]
      | some sock =>
          simp only [step, onErrorEv, hf]
          rw [if_neg (fun hc => hsock sock (List.mem_of_find?_eq_some hf) hc.1)]
  | socketClose sid =>
      cases hf : findSocket s sid with
      | none =>
          apply hself
          simp only [step, onCloseEv, hf]
      | some sock =>
          by_cases hst : sock.state ≠ ReadyState.closed
          · have hstep : step s (Ev.socketClose sid) =
                updateSocket s sid (fun k => { k with state := ReadyState.closed }) := by
              simp only [step, onCloseEv, hf]
              rw [if_pos hst, if_neg (fun hc => by simp [hcur] at hc)]
            rw [hstep]
            refine ⟨⟨by simp [hcur], by simp [hrt], by simp [hct], by simp [hip], ?_⟩,
              by simp, by simp, fun h2 => by simp [h2]⟩
            intro sock' hmem' hout
            rw [updateSocket_sockets] at hmem'
            rcases mem_updSock.mp hmem' with ⟨k, hk, hEq⟩
            by_cases hks : k.sid = sid
            · rw [if_pos hks] at hEq
              subst hEq
              simp [outstanding] at hout
            · rw [if_neg hks] at hEq
              subst hEq
              exact hsock sock' hk hout
          · apply hself
            simp only [step, onCloseEv, hf]
            rw [if_neg hst]
  | connTimeoutFire =>
      apply hself
      simp only [step, connTimeoutEv, hct]
  | retryFire ct =>
      apply hself
      simp only [step, retryEv, hrt]
  | initFire ct =>
      apply hself
      simp [step, initEv, hip]
  | teardown =>
      have hstep : step s Ev.teardown =
          clearTimeouts { s with mounted := false, initPending := false } := by
        simp only [step, teardownEv, resetConnection, clearTimeouts, hcur]
      rw [hstep]
      exact ⟨⟨hcur, rfl, rfl, rfl, hsock⟩, rfl, rfl, fun _ => rfl⟩
  | reinit => exact absurd rfl hne

/-- Claim C2: once the attempt ceiling (5) is hit and the client is
quiescent, it is terminal: every event other than the external
re-initiation keeps it quiescent with the ceiling-level counter, creates
no socket and schedules no timer; the re-initiation (the setup effect
re-running) resets the counter to zero and remounts. -/
theorem C2_giving_up_terminal (s : WSClient) (e : Ev) (hg : givingUp s) :
    MAX_RECONNECT_ATTEMPTS = 5 ∧
    (e ≠ Ev.reinit → givingUp (step s e) ∧ (step s e).nextId = s.nextId ∧
      (step s e).reconnectTimeout = none ∧ (step s e).connectionTimeout = none ∧
      (step s e).reconnectAttempts = s.reconnectAttempts) ∧
    (step s Ev.reinit).reconnectAttempts = 0 ∧ (step s Ev.reinit).mounted = true := by
  obtain ⟨hq, hmax⟩ := hg
  refine ⟨rfl, ?_, rfl, rfl⟩
  intro hne
  obtain ⟨hq2, hnext, hatt, _⟩ := quiescent_step s e hq hne
  exact ⟨⟨hq2, by rw [hatt]; exact hmax⟩, hnext, hq2.2.1, hq2.2.2.1, hatt⟩

/-- Claim C2 witness: the state after five consecutive failed attempts is
a giving-up state, and a further timer event is inert while the setup
effect re-running resets the counter. -/
theorem C2_giving_up_terminal_witness :
    givingUp gState ∧ givingUp (step gState Ev.connTimeoutFire) ∧
    (step gState Ev.connTimeoutFire).nextId = gState.nextId ∧
    (step gState Ev.reinit).reconnectAttempts = 0 := by
  have hg : givingUp gState := by decide
  have h := C2_giving_up_terminal gState Ev.connTimeoutFire hg
  exact ⟨hg, (h.2.1 (by decide)).1, (h.2.1 (by decide)).2.1, h.2.2.1⟩

/-- Claim C4: the effect cleanup tears the client down (unmounted, no
transport, no timers); teardown of a torn-down client is a no-op; and
after teardown no event other than re-initiation can schedule a retry or
create a socket — in particular a detached socket's late close event is
harmless because its handlers were removed before closing. -/
theorem C4_teardown_final (s t : WSClient) (e : Ev) (hinv : WSInv s) (ht : tornDown t)
    (hne : e ≠ Ev.reinit) :
    tornDown (step s Ev.teardown) ∧
    step t Ev.teardown = t ∧
    tornDown (step t e) ∧ (step t e).reconnectTimeout = none ∧
    (step t e).nextId = t.nextId := by
  refine ⟨?_, ?_, ?_, ?_, ?_⟩
  · refine ⟨by simp [step, teardownEv], by simp [step, teardownEv],
      by simp [step, teardownEv], by simp [step, teardownEv],
      by simp [step, teardownEv], ?_⟩
    intro sock hmem
    exact resetConnection_no_outstanding { s with mounted := false, initPending := false }
      (fun k hk ho => hinv.2.2 k hk ho) sock hmem
  · obtain ⟨hm, hcu, hrt2, hct2, hip2, hso⟩ := ht
    rcases t with ⟨so, wc, rt, ct, ra, mo, ic, lg, ip, ni⟩
    simp only [] at hm hcu hrt2 hct2 hip2
    subst hm hcu hrt2 hct2 hip2
    rfl
  · obtain ⟨hq2, _, _, hmo⟩ := quiescent_step t e ht.2 hne
    exact ⟨hmo ht.1, hq2⟩
  · exact (quiescent_step t e ht.2 hne).1.2.1
  · exact (quiescent_step t e ht.2 hne).2.1

/-- Claim C4 witness: tearing down the connecting client, re-tearing the
torn-down state, and a late close event on the detached socket. -/
theorem C4_teardown_final_witness :
    tornDown (step ws1 Ev.teardown) ∧ step tState Ev.teardown = tState ∧
    tornDown (step tState (Ev.socketClose 0)) := by
  have h := C4_teardown_final ws1 tState (Ev.socketClose 0) (by decide) (by decide) (by decide)
  exact ⟨h.1, h.2.1, h.2.2.1⟩

theorem updSock_nextBound {l : List Socket} {n sid : Nat} {f : Socket → Socket}
    (hf : ∀ k, (f k).sid = k.sid) (h1 : ∀ sock ∈ l, sock.sid < n) :
    ∀ sock ∈ updSock l sid f, sock.sid < n := by
  intro sock hmem
  rcases mem_updSock.mp hmem with ⟨k, hk, hEq⟩
  subst hEq
  rw [updSock_sid_eq hf k]
  exact h1 k hk

theorem updSock_pairwise {l : List Socket} {sid : Nat} {f : Socket → Socket}
    (hf : ∀ k, (f k).sid = k.sid)
    (hp : List.Pairwise (fun a b => a.sid ≠ b.sid) l) :
    List.Pairwise (fun a b => a.sid ≠ b.sid) (updSock l sid f) := by
  unfold updSock
  rw [List.pairwise_map]
  exact hp.imp (fun h => by rwa [updSock_sid_eq hf, updSock_sid_eq hf])

/-- The structural invariant only reads the socket list, the current
transport and the id counter. -/
theorem WSInv_congr (r r' : WSClient) (hs : r'.sockets = r.sockets)
    (hw : r'.wsCurrent = r.wsCurrent) (hn : r'.nextId = r.nextId) (hinv : WSInv r) :
    WSInv r' := by
  obtain ⟨h1, h2, h3⟩ := hinv
  refine ⟨?_, ?_, ?_⟩
  · intro sock hmem
    rw [hs] at hmem
    rw [hn]
    exact h1 sock hmem
  · rw [hs]
    exact h2
  · intro sock hmem hout
    rw [hs] at hmem
    rw [hw]
    exact h3 sock hmem hout

theorem resetConnection_inv (s : WSClient) (hinv : WSInv s) : WSInv (resetConnection s) := by
  obtain ⟨h1, h2, h3⟩ := hinv
  refine ⟨?_, ?_, ?_⟩
  · intro sock hmem
    rw [resetConnection_nextId]
    cases hc : s.wsCurrent with
    | none =>
        rw [resetConnection_sockets_none s hc] at hmem
        exact h1 sock hmem
    | some sid =>
        rw [resetConnection_sockets_some s sid hc] at hmem
        exact @updSock_nextBound s.sockets s.nextId sid
          (fun k => closeSocket { k with handlers := false }) (fun k => by simp) h1 sock hmem
  · cases hc : s.wsCurrent with
    | none =>
        rw [resetConnection_sockets_none s hc]
        exact h2
    | some sid =>
        rw [resetConnection_sockets_some s sid hc]
        exact @updSock_pairwise s.sockets sid
          (fun k => closeSocket { k with handlers := false }) (fun k => by simp) h2
  · intro sock hmem hout
    exact absurd hout (resetConnection_no_outstanding s h3 sock hmem)

/-- Appending the freshly created CONNECTING socket and making it current
keeps the invariant, provided no prior socket is outstanding. -/
theorem append_fresh_inv (s : WSClient)
    (hinv : WSInv s) (hno : ∀ sock ∈ s.sockets, ¬ outstanding sock) :
    WSInv { s with
      sockets := s.sockets ++ [⟨s.nextId, ReadyState.connecting, true⟩]
      wsCurrent := some s.nextId
      connectionTimeout := some ⟨s.nextId, CONNECTION_TIMEOUT⟩
      nextId := s.nextId + 1 } := by
  obtain ⟨h1, h2, h3⟩ := hinv
  refine ⟨?_, ?_, ?_⟩
  · intro sock hmem
    show sock.sid < s.nextId + 1
    rcases List.mem_append.mp hmem with hL | hR
    · exact Nat.lt_succ_of_lt (h1 sock hL)
    · rw [List.mem_singleton.mp hR]
      exact Nat.lt_succ_self _
  · show List.Pairwise _ (s.sockets ++ [⟨s.nextId, ReadyState.connecting, true⟩])
    rw [List.pairwise_append]
    refine ⟨h2, List.pairwise_singleton _ _, ?_⟩
    intro a ha b hb
    rw [List.mem_singleton.mp hb]
    exact Nat.ne_of_lt (h1 a ha)
  · intro sock hmem hout
    rcases List.mem_append.mp hmem with hL | hR
    · exact absurd hout (hno sock hL)
    · rw [List.mem_singleton.mp hR]
      exact ⟨rfl, rfl⟩

theorem connect_inv (s : WSClient) (ct : Bool) (hinv : WSInv s) : WSInv (connect ct s) := by
  have hr := resetConnection_inv s hinv
  have hro := resetConnection_no_outstanding s hinv.2.2
  simp only [connect]
  split
  · exact hinv
  · split
    · exact hr
    · split
      · split
        · exact WSInv_congr _ _ rfl rfl rfl hr
        · exact WSInv_congr _ _ rfl rfl rfl hr
      · exact append_fresh_inv (resetConnection s) hr hro

theorem invStep (s : WSClient) (e : Ev) (hinv : WSInv s) : WSInv (step s e) := by
  obtain ⟨h1, h2, h3⟩ := hinv
  cases e with
  | socketOpen sid =>
      cases hf : findSocket s sid with
      | none =>
          simp only [step, onOpenEv, hf]
          exact ⟨h1, h2, h3⟩
      | some sock =>
          have hmem := List.mem_of_find?_eq_some hf
          have hsid : sock.sid = sid := by simpa using List.find?_some hf
          by_cases hst : sock.state = ReadyState.connecting
          · obtain ⟨hcur, hhand⟩ := h3 sock hmem (Or.inl hst)
            rw [hsid] at hcur
            have hcore : WSInv
                (updateSocket s sid (fun k => { k with state := ReadyState.opened })) := by
              refine ⟨?_, ?_, ?_⟩
              · rw [updateSocket_sockets, updateSocket_nextId]
                exact @updSock_nextBound s.sockets s.nextId sid
                  (fun k => { k with state := ReadyState.opened }) (fun k => rfl) h1
              · rw [updateSocket_sockets]
                exact @updSock_pairwise s.sockets sid
                  (fun k => { k with state := ReadyState.opened }) (fun k => rfl) h2
              · intro sock' hmem' hout'
                rw [updateSocket_sockets] at hmem'
                rw [updateSocket_wsCurrent]
                rcases mem_updSock.mp hmem' with ⟨k, hk, hEq⟩
                by_cases hks : k.sid = sid
                · rw [if_pos hks] at hEq
                  subst hEq
                  have hkeq : k = sock := sidInj h2 hk hmem (by rw [hks, hsid])
                  constructor
                  · show s.wsCurrent = some k.sid
                    rw [hks]
                    exact hcur
                  · show k.handlers = true
                    rw [hkeq]
                    exact hhand
                · rw [if_neg hks] at hEq
                  subst hEq
                  exact h3 _ hk hout'
            by_cases hm : s.mounted = true
            · rw [show step s (Ev.socketOpen sid) = onOpenEv s sid from rfl,
                onOpen_eq s sid sock hf hst hhand hcur hm]
              exact WSInv_congr _ _ rfl rfl rfl hcore
            · have hstep : step s (Ev.socketOpen sid) =
                  updateSocket s sid (fun k => { k with state := ReadyState.opened }) := by
                simp only [step, onOpenEv, hf]
                rw [if_pos hst, if_neg (fun hc => hm hc.2.2)]
              rw [hstep]
              exact hcore
          · simp only [step, onOpenEv, hf]
            rw [if_neg hst]
            exact ⟨h1, h2, h3⟩
  | socketMessage sid data =>
      cases hf : findSocket s sid with
      | none =>
          simp only [step, onMessageEv, hf]
          exact ⟨h1, h2, h3⟩
      | some sock =>
          simp only [step, onMessageEv, hf]
          split
          · cases data with
            | some entry => exact WSInv_congr _ _ rfl rfl rfl ⟨h1, h2, h3⟩
            | none => exact ⟨h1, h2, h3⟩
          · exact ⟨h1, h2, h3⟩
  | socketError sid =>
      cases hf : findSocket s sid with
      | none =>
          simp only [step, onErrorEv, hf]
          exact ⟨h1, h2, h3⟩
      | some sock =>
          simp only [step, onErrorEv, hf]
          split
          · exact WSInv_congr _ _ rfl rfl rfl ⟨h1, h2, h3⟩
          · exact ⟨h1, h2, h3⟩
  | socketClose sid =>
      cases hf : findSocket s sid with
      | none =>
          simp only [step, onCloseEv, hf]
          exact ⟨h1, h2, h3⟩
      | some sock =>
          have hmem := List.mem_of_find?_eq_some hf
          have hcA := @updSock_nextBound s.sockets s.nextId sid
            (fun k => { k with state := ReadyState.closed }) (fun k => rfl) h1
          have hcB := @updSock_pairwise s.sockets sid
            (fun k => { k with state := ReadyState.closed }) (fun k => rfl) h2
          simp only [step, onCloseEv, hf]
          split
          · split
            · next hg =>
                have hgc : s.wsCurrent = some sid := by
                  have := hg.2
                  rwa [updateSocket_wsCurrent] at this
                have hnone : ∀ sock' ∈ updSock s.sockets sid
                    (fun k => { k with state := ReadyState.closed }), ¬ outstanding sock' := by
                  intro sock' hmem' hout'
                  rcases mem_updSock.mp hmem' with ⟨k, hk, hEq⟩
                  by_cases hks : k.sid = sid
                  · rw [if_pos hks] at hEq
                    subst hEq
                    simp [outstanding] at hout'
                  · rw [if_neg hks] at hEq
                    subst hEq
                    have h5 := (h3 _ hk hout').1
                    rw [hgc] at h5
                    injection h5 with h6
                    exact hks h6.symm
                split
                · exact ⟨hcA, hcB, fun sock' hmem' hout' => absurd hout' (hnone sock' hmem')⟩
                · exact ⟨hcA, hcB, fun sock' hmem' hout' => absurd hout' (hnone sock' hmem')⟩
            · refine ⟨hcA, hcB, ?_⟩
              intro sock' hmem' hout'
              rcases mem_updSock.mp hmem' with ⟨k, hk, hEq⟩
              by_cases hks : k.sid = sid
              · rw [if_pos hks] at hEq
                subst hEq
                simp [outstanding] at hout'
              · rw [if_neg hks] at hEq
                subst hEq
                exact h3 _ hk hout'
          · exact ⟨h1, h2, h3⟩
  | connTimeoutFire =>
      cases hc : s.connectionTimeout with
      | none =>
          simp only [step, connTimeoutEv, hc]
          exact ⟨h1, h2, h3⟩
      | some t =>
          simp only [step, connTimeoutEv, hc]
          split
          · cases hf : findSocket { s with connectionTimeout := none } t.target with
            | none =>
                simp only [hf]
                exact ⟨h1, h2, h3⟩
            | some sock =>
                simp only [hf]
                split
                · refine ⟨?_, ?_, ?_⟩
                  · rw [updateSocket_sockets, updateSocket_nextId]
                    exact @updSock_nextBound s.sockets s.nextId t.target closeSocket
                      closeSocket_sid h1
                  · rw [updateSocket_sockets]
                    exact @updSock_pairwise s.sockets t.target closeSocket closeSocket_sid h2
                  · intro sock' hmem' hout'
                    rw [updateSocket_sockets] at hmem'
                    rw [updateSocket_wsCurrent]
                    rcases mem_updSock.mp hmem' with ⟨k, hk, hEq⟩
                    by_cases hks : k.sid = t.target
                    · rw [if_pos hks] at hEq
                      subst hEq
                      exact absurd hout' (closeSocket_not_outstanding k)
                    · rw [if_neg hks] at hEq
                      subst hEq
                      exact h3 _ hk hout'
                · exact ⟨h1, h2, h3⟩
          · exact ⟨h1, h2, h3⟩
  | retryFire ct =>
      cases hr : s.reconnectTimeout with
      | none =>
          simp only [step, retryEv, hr]
          exact ⟨h1, h2, h3⟩
      | some t =>
          rcases t with ⟨d, src⟩
          cases src with
          | fromClose =>
              simp only [step, retryEv, hr]
              split
              · exact connect_inv _ ct (WSInv_congr _ _ rfl rfl rfl ⟨h1, h2, h3⟩)
              · exact ⟨h1, h2, h3⟩
          | fromCatch =>
              simp only [step, retryEv, hr]
              exact connect_inv _ ct (WSInv_congr _ _ rfl rfl rfl ⟨h1, h2, h3⟩)
  | initFire ct =>
      simp only [step, initEv]
      split
      · split
        · exact connect_inv _ ct (WSInv_congr _ _ rfl rfl rfl ⟨h1, h2, h3⟩)
        · exact WSInv_congr _ _ rfl rfl rfl ⟨h1, h2, h3⟩
      · exact ⟨h1, h2, h3⟩
  | teardown =>
      exact resetConnection_inv { s with mounted := false, initPending := false }
        (WSInv_congr _ _ rfl rfl rfl ⟨h1, h2, h3⟩)
  | reinit =>
      exact WSInv_congr _ _ rfl rfl rfl ⟨h1, h2, h3⟩

/-- Claim C3: in every reachable state of the client at most one
transport is outstanding — and it is exactly the attached current one —
while at most one retry timer and one connection timer exist by
construction of the single timer refs; and every `connect` call first
tears down the prior transport (handlers removed, socket no longer
outstanding) and clears both pending timers before the new CONNECTING
socket is created and appended. -/
theorem C3_single_transport :
    (∀ s, Reachable s → WSInv s ∧
      (∀ sock1, sock1 ∈ s.sockets → outstanding sock1 →
        ∀ sock2, sock2 ∈ s.sockets → outstanding sock2 → sock1 = sock2) ∧
      (∀ sock, sock ∈ s.sockets → outstanding sock →
        s.wsCurrent = some sock.sid ∧ sock.handlers = true)) ∧
    (∀ s, (resetConnection s).wsCurrent = none ∧
      (resetConnection s).reconnectTimeout = none ∧
      (resetConnection s).connectionTimeout = none) ∧
    (∀ s sid, s.wsCurrent = some sid →
      ∀ sock ∈ (resetConnection s).sockets, sock.sid = sid →
        sock.handlers = false ∧ ¬ outstanding sock) ∧
    (∀ s, s.mounted = true → s.reconnectAttempts < MAX_RECONNECT_ATTEMPTS →
      connect false s = { resetConnection s with
        sockets := (resetConnection s).sockets ++ [⟨s.nextId, ReadyState.connecting, true⟩]
        wsCurrent := some s.nextId
        connectionTimeout := some ⟨s.nextId, CONNECTION_TIMEOUT⟩
        nextId := s.nextId + 1 }) := by
  refine ⟨?_, ?_, ?_, ?_⟩
  · intro s hreach
    have hinv : WSInv s := by
      induction hreach with
      | init => decide
      | next s0 e0 h0 ih => exact invStep s0 e0 ih
    refine ⟨hinv, ?_, hinv.2.2⟩
    intro sock1 hm1 ho1 sock2 hm2 ho2
    have e1 := (hinv.2.2 sock1 hm1 ho1).1
    have e2 := (hinv.2.2 sock2 hm2 ho2).1
    rw [e1] at e2
    injection e2 with e3
    exact sidInj hinv.2.1 hm1 hm2 e3
  · intro s
    exact ⟨resetConnection_wsCurrent s, resetConnection_reconnectTimeout s,
      resetConnection_connectionTimeout s⟩
  · intro s sid hc sock hmem hsid
    rw [resetConnection_sockets_some s sid hc] at hmem
    rcases mem_updSock.mp hmem with ⟨k, hk, hEq⟩
    by_cases hks : k.sid = sid
    · rw [if_pos hks] at hEq
      subst hEq
      exact ⟨by simp, closeSocket_not_outstanding _⟩
    · rw [if_neg hks] at hEq
      subst hEq
      exact absurd hsid hks
  · intro s hm hatt
    exact connect_ok s hm hatt

/-- Claim C3 witness: the invariant in the initial and first-connected
states, and the fresh connect of `ws1` tearing down before creating
socket 1. -/
theorem C3_single_transport_witness :
    WSInv initState ∧ WSInv ws1 ∧
    (connect false ws1).wsCurrent = some 1 ∧
    (resetConnection ws1).wsCurrent = none := by
  have h := C3_single_transport
  refine ⟨(h.1 initState Reachable.init).1,
    (h.1 ws1 (Reachable.next initState (Ev.initFire false) Reachable.init)).1, ?_,
    (h.2.1 ws1).1⟩
  rw [h.2.2.2 ws1 (by decide) (by decide)]
  decide

end AgentPlatform
